import Mathlib

/-!
# Verification of the barn-builder parametric geometry model

Shallow embedding of the parametric geometry core of the barn-builder
repository: wall-feature placement (`WallFeature` component), the roof
dimension/pitch solver and panel layout (`Roof` component), the gable wall
outline and structural beam layout (`Wall` component), and the skylight
partition.  Rational arithmetic (`ℚ`) models the exact rational formulas of
the source; real arithmetic (`ℝ`) models the calls to `Math.sqrt` and
`Math.atan2`.
-/

namespace BarnBuilder

/-- Building dimensions, from `types/index.ts` (`BuildingDimensions`). -/
structure BuildingDimensions where
  width : ℚ
  length : ℚ
  height : ℚ
  roofPitch : ℚ
deriving DecidableEq

/-- The four wall positions, from `types/index.ts` (`WallPosition`). -/
inductive WallPosition where
  | front
  | back
  | left
  | right
deriving DecidableEq

/-- Feature alignment modes, from `types/index.ts` (`FeaturePosition.alignment`). -/
inductive Alignment where
  | left
  | center
  | right
deriving DecidableEq

/-- Feature position on a wall, from `types/index.ts` (`FeaturePosition`). -/
structure FeaturePosition where
  wallPosition : WallPosition
  xOffset : ℚ
  yOffset : ℚ
  alignment : Alignment
deriving DecidableEq

/-- Feature types, from `types/index.ts` (`FeatureType`). -/
inductive FeatureType where
  | door
  | window
  | rollupDoor
  | walkDoor
deriving DecidableEq

/-- A wall feature, from `types/index.ts` (`WallFeature`). -/
structure WallFeature where
  id : String
  type : FeatureType
  width : ℚ
  height : ℚ
  position : FeaturePosition
deriving DecidableEq

/-- A skylight, from `types/index.ts` (`Skylight`). -/
structure Skylight where
  width : ℚ
  length : ℚ
  xOffset : ℚ
  yOffset : ℚ
deriving DecidableEq

/-- Result of the feature placement resolver in the `WallFeature` component:
world position `(x, y, z)` and yaw.  The source stores the yaw in radians as
`0`, `Math.PI`, `Math.PI / 2` or `-Math.PI / 2`; here `rotYPi` records the
rational coefficient of `π`, so those four values appear as `0`, `1`, `1/2`
and `-1/2`. -/
structure Placement where
  x : ℚ
  y : ℚ
  z : ℚ
  rotYPi : ℚ
deriving DecidableEq

/-- The feature placement resolver, from the `useMemo` block of the
`WallFeature` component: the `switch` on `feature.position.wallPosition` with
the alignment branches, the clearance `0.1 = 1/10`, and
`y = yOffset + feature.height / 2`. -/
def wallFeaturePlacement (feature : WallFeature) (b : BuildingDimensions) :
    Placement :=
  let halfWidth := b.width / 2
  let halfLength := b.length / 2
  let y := feature.position.yOffset + feature.height / 2
  match feature.position.wallPosition with
  | .front =>
      let x :=
        match feature.position.alignment with
        | .left => -halfWidth + feature.width / 2 + feature.position.xOffset
        | .right => halfWidth - feature.width / 2 - feature.position.xOffset
        | .center => feature.position.xOffset
      ⟨x, y, halfLength + 1 / 10, 0⟩
  | .back =>
      let x :=
        match feature.position.alignment with
        | .left => halfWidth - feature.width / 2 - feature.position.xOffset
        | .right => -halfWidth + feature.width / 2 + feature.position.xOffset
        | .center => -feature.position.xOffset
      ⟨x, y, -halfLength - 1 / 10, 1⟩
  | .left =>
      let z :=
        match feature.position.alignment with
        | .left => -halfLength + feature.width / 2 + feature.position.xOffset
        | .right => halfLength - feature.width / 2 - feature.position.xOffset
        | .center => feature.position.xOffset
      ⟨-halfWidth - 1 / 10, y, z, 1 / 2⟩
  | .right =>
      let z :=
        match feature.position.alignment with
        | .left => halfLength - feature.width / 2 - feature.position.xOffset
        | .right => -halfLength + feature.width / 2 + feature.position.xOffset
        | .center => -feature.position.xOffset
      ⟨halfWidth + 1 / 10, y, z, -(1 / 2)⟩

end BarnBuilder

namespace BarnBuilder

/-- C1: for every `WallFeature` and positive building dimensions, the
placement resolver returns `y = yOffset + featureHeight/2` and exactly the
wall-specific sign table with clearance `0.1` (yaw is recorded as a
coefficient of `π`: front `0`, back `1`, left `1/2`, right `-1/2`). -/
theorem wallFeaturePlacement_sign_table (f : WallFeature)
    (b : BuildingDimensions) (hw : 0 < b.width) (hl : 0 < b.length)
    (hh : 0 < b.height) :
    (wallFeaturePlacement f b).y = f.position.yOffset + f.height / 2 ∧
    (f.position.wallPosition = .front →
      (wallFeaturePlacement f b).z = b.length / 2 + 1 / 10 ∧
      (wallFeaturePlacement f b).rotYPi = 0 ∧
      (f.position.alignment = .left →
        (wallFeaturePlacement f b).x =
          -(b.width / 2) + f.width / 2 + f.position.xOffset) ∧
      (f.position.alignment = .right →
        (wallFeaturePlacement f b).x =
          b.width / 2 - f.width / 2 - f.position.xOffset) ∧
      (f.position.alignment = .center →
        (wallFeaturePlacement f b).x = f.position.xOffset)) ∧
    (f.position.wallPosition = .back →
      (wallFeaturePlacement f b).z = -(b.length / 2) - 1 / 10 ∧
      (wallFeaturePlacement f b).rotYPi = 1 ∧
      (f.position.alignment = .left →
        (wallFeaturePlacement f b).x =
          b.width / 2 - f.width / 2 - f.position.xOffset) ∧
      (f.position.alignment = .right →
        (wallFeaturePlacement f b).x =
          -(b.width / 2) + f.width / 2 + f.position.xOffset) ∧
      (f.position.alignment = .center →
        (wallFeaturePlacement f b).x = -f.position.xOffset)) ∧
    (f.position.wallPosition = .left →
      (wallFeaturePlacement f b).x = -(b.width / 2) - 1 / 10 ∧
      (wallFeaturePlacement f b).rotYPi = 1 / 2 ∧
      (f.position.alignment = .left →
        (wallFeaturePlacement f b).z =
          -(b.length / 2) + f.width / 2 + f.position.xOffset) ∧
      (f.position.alignment = .right →
        (wallFeaturePlacement f b).z =
          b.length / 2 - f.width / 2 - f.position.xOffset) ∧
      (f.position.alignment = .center →
        (wallFeaturePlacement f b).z = f.position.xOffset)) ∧
    (f.position.wallPosition = .right →
      (wallFeaturePlacement f b).x = b.width / 2 + 1 / 10 ∧
      (wallFeaturePlacement f b).rotYPi = -(1 / 2) ∧
      (f.position.alignment = .left →
        (wallFeaturePlacement f b).z =
          b.length / 2 - f.width / 2 - f.position.xOffset) ∧
      (f.position.alignment = .right →
        (wallFeaturePlacement f b).z =
          -(b.length / 2) + f.width / 2 + f.position.xOffset) ∧
      (f.position.alignment = .center →
        (wallFeaturePlacement f b).z = -f.position.xOffset)) := by
  obtain ⟨i, t, w, h, wp, xo, yo, al⟩ := f
  cases wp <;> cases al <;> simp [wallFeaturePlacement]

/-- Witness for C1 at a concrete feature and building. -/
theorem wallFeaturePlacement_sign_table_witness :
    (0 : ℚ) < 20 ∧ (0 : ℚ) < 30 ∧ (0 : ℚ) < 10 ∧
    (wallFeaturePlacement ⟨"d1", .door, 7, 8, ⟨.front, 2, 3, .left⟩⟩
        ⟨20, 30, 10, 4⟩).y = 3 + 8 / 2 := by
  refine ⟨by norm_num, by norm_num, by norm_num, ?_⟩
  exact (wallFeaturePlacement_sign_table
    ⟨"d1", .door, 7, 8, ⟨.front, 2, 3, .left⟩⟩ ⟨20, 30, 10, 4⟩
    (by norm_num) (by norm_num) (by norm_num)).1

/-- Counterexample to C5 as stated: a feature on the front wall with
alignment `left` and `xOffset = 0` is NOT centered — its world `x` is
`-width/2 + featureWidth/2 = -9`, not the wall centerline `0`. -/
theorem front_left_xOffset_zero_not_centered :
    (wallFeaturePlacement ⟨"d1", .door, 2, 7, ⟨.front, 0, 0, .left⟩⟩
      ⟨20, 30, 10, 4⟩).x ≠ 0 := by
  norm_num [wallFeaturePlacement]

/-- C5 (amended): for `wallPosition ∈ {front, back}` and alignment `center`,
a feature placed with `xOffset = 0` has world `x` equal to the wall's
centerline `x = 0`. -/
theorem front_back_center_xOffset_zero_centered (f : WallFeature)
    (b : BuildingDimensions)
    (hfb : f.position.wallPosition = .front ∨ f.position.wallPosition = .back)
    (hal : f.position.alignment = .center) (hx : f.position.xOffset = 0) :
    (wallFeaturePlacement f b).x = 0 := by
  obtain ⟨i, t, w, h, wp, xo, yo, al⟩ := f
  simp only at hfb hal hx
  subst hal hx
  rcases hfb with hfb | hfb <;> subst hfb <;> simp [wallFeaturePlacement]

/-- Witness for the amended C5 at a concrete feature and building. -/
theorem front_back_center_xOffset_zero_centered_witness :
    (wallFeaturePlacement ⟨"w1", .window, 4, 3, ⟨.back, 0, 2, .center⟩⟩
      ⟨20, 30, 10, 4⟩).x = 0 :=
  front_back_center_xOffset_zero_centered
    ⟨"w1", .window, 4, 3, ⟨.back, 0, 2, .center⟩⟩ ⟨20, 30, 10, 4⟩
    (Or.inr rfl) rfl rfl

/-! ## Structural beam layout (`Wall` component, `beams` memo) -/

/-- Maximum beam spacing constant from the `Wall` component. -/
def Wall.maxSpacing : ℚ := 8

/-- Minimum beam spacing constant from the `Wall` component. -/
def Wall.minSpacing : ℚ := 4

/-- Edge margin constant from the `Wall` component. -/
def Wall.margin : ℚ := 2

/-- `availableWidth = width - 2 * margin`, from the `Wall` component. -/
def Wall.availableWidth (width : ℚ) : ℚ := width - 2 * Wall.margin

/-- `numSpaces = Math.max(2, Math.floor(availableWidth / maxSpacing))`,
from the `Wall` component. -/
def Wall.numSpaces (width : ℚ) : ℤ :=
  max 2 ⌊Wall.availableWidth width / Wall.maxSpacing⌋

/-- `spacing = Math.max(minSpacing, availableWidth / numSpaces)`, from the
`Wall` component. -/
def Wall.spacing (width : ℚ) : ℚ :=
  max Wall.minSpacing (Wall.availableWidth width / (Wall.numSpaces width : ℚ))

/-- The `while (currentPos <= upper)` beam-collection loop of the `Wall`
component.  The extra `0 < spacing` conjunct in the guard records the
termination argument; at the only call site (`Wall.beamPositions`) the
spacing is `max 4 _ ≥ 4 > 0`, so the guard is equivalent to the source's
`currentPos <= width/2 - margin`. -/
def Wall.beamLoop (upper spacing pos : ℚ) : List ℚ :=
  if h : pos ≤ upper ∧ 0 < spacing then
    pos :: Wall.beamLoop upper spacing (pos + spacing)
  else
    []
termination_by (⌊(upper - pos) / spacing⌋ + 1).toNat
decreasing_by
  obtain ⟨hle, hpos⟩ := h
  have hs : spacing ≠ 0 := ne_of_gt hpos
  have hdiv : (upper - (pos + spacing)) / spacing = (upper - pos) / spacing - 1 := by
    field_simp
    ring
  have hfloor : ⌊(upper - (pos + spacing)) / spacing⌋ = ⌊(upper - pos) / spacing⌋ - 1 := by
    rw [hdiv]
    exact_mod_cast Int.floor_sub_int ((upper - pos) / spacing) 1
  have hnn : 0 ≤ (upper - pos) / spacing :=
    div_nonneg (by linarith) (le_of_lt hpos)
  have h0 : 0 ≤ ⌊(upper - pos) / spacing⌋ := Int.floor_nonneg.mpr hnn
  rw [hfloor]
  omega

/-- The beam x-position list of the `Wall` component: positions start at
`-width/2 + margin` and increment by `spacing` while `≤ width/2 - margin`. -/
def Wall.beamPositions (width : ℚ) : List ℚ :=
  Wall.beamLoop (width / 2 - Wall.margin) (Wall.spacing width)
    (-(width / 2) + Wall.margin)

/-- The beam spacing is always at least the minimum spacing `4`, hence
positive. -/
lemma Wall.spacing_pos (width : ℚ) : 0 < Wall.spacing width :=
  lt_of_lt_of_le (by norm_num [Wall.minSpacing]) (le_max_left _ _)

/-- Closed form of the beam-collection loop: an arithmetic progression of
`⌊(upper - pos)/spacing⌋ + 1` terms (none when `pos > upper`). -/
lemma Wall.beamLoop_closed_form (upper spacing : ℚ) (hs : 0 < spacing) :
    ∀ pos, Wall.beamLoop upper spacing pos =
      (List.range (⌊(upper - pos) / spacing⌋ + 1).toNat).map
        (fun i : ℕ => pos + (i : ℚ) * spacing) := by
  intro pos
  generalize hn : (⌊(upper - pos) / spacing⌋ + 1).toNat = n
  induction n generalizing pos with
  | zero =>
    have h1 : ⌊(upper - pos) / spacing⌋ < 0 := by omega
    have h3 : ¬pos ≤ upper := by
      intro hle
      have h2 : 0 ≤ (upper - pos) / spacing :=
        div_nonneg (by linarith) hs.le
      have := Int.floor_nonneg.mpr h2
      omega
    rw [Wall.beamLoop, dif_neg (by tauto)]
    simp
  | succ n ih =>
    have hge : 0 ≤ ⌊(upper - pos) / spacing⌋ := by omega
    have hx : (0 : ℚ) ≤ (upper - pos) / spacing :=
      le_trans (by exact_mod_cast hge) (Int.floor_le _)
    have hle : pos ≤ upper := by
      have := (div_nonneg_iff.mp hx).resolve_right (fun h => by
        have := h.2
        linarith)
      linarith [this.1]
    have hdiv : (upper - (pos + spacing)) / spacing =
        (upper - pos) / spacing - 1 := by
      field_simp
      ring
    have hm : (⌊(upper - (pos + spacing)) / spacing⌋ + 1).toNat = n := by
      rw [hdiv, show (upper - pos) / spacing - 1 =
        (upper - pos) / spacing - ((1 : ℤ) : ℚ) by norm_num,
        Int.floor_sub_int]
      omega
    rw [Wall.beamLoop, dif_pos ⟨hle, hs⟩, ih _ hm, List.range_succ_eq_map,
      List.map_cons, List.map_map]
    have hfun : ((fun i : ℕ => pos + (i : ℚ) * spacing) ∘ Nat.succ) =
        fun i : ℕ => pos + spacing + (i : ℚ) * spacing := by
      funext i
      simp only [Function.comp]
      push_cast
      ring
    rw [hfun]
    norm_num

/-- Concrete beam layout at wall width `20`: spacing `8`. -/
lemma Wall.spacing_twenty : Wall.spacing 20 = 8 := by
  have hfl : ⌊Wall.availableWidth 20 / Wall.maxSpacing⌋ = 2 := by
    rw [Int.floor_eq_iff]
    norm_num [Wall.availableWidth, Wall.maxSpacing, Wall.margin]
  rw [Wall.spacing, Wall.numSpaces, hfl]
  norm_num [Wall.availableWidth, Wall.maxSpacing, Wall.minSpacing, Wall.margin]

/-- Concrete beam layout at wall width `20`: three beams at `-8, 0, 8`. -/
lemma Wall.beamPositions_twenty : Wall.beamPositions 20 = [-8, 0, 8] := by
  rw [Wall.beamPositions, Wall.beamLoop_closed_form _ _
    (by rw [Wall.spacing_twenty]; norm_num), Wall.spacing_twenty]
  have hfl : ⌊((20 : ℚ) / 2 - Wall.margin - (-(20 / 2) + Wall.margin)) / 8⌋ = 2 := by
    rw [Int.floor_eq_iff]
    norm_num [Wall.margin]
  rw [hfl, show ((2 : ℤ) + 1).toNat = 3 from rfl,
    show List.range 3 = [0, 1, 2] from rfl]
  norm_num [Wall.margin]

/-- C3: the beam x-position list is the arithmetic progression starting at
`-W/2 + 2` with step `spacing W`, one term for each position `≤ W/2 - 2`
(that is, `⌊((W/2-2) - (-W/2+2)) / spacing⌋ + 1` terms), where
`availableWidth = W - 4`, `numSpaces = max 2 ⌊availableWidth/8⌋` and
`spacing = max 4 (availableWidth/numSpaces)`; in particular for `W = 20`
the positions are exactly `[-8, 0, 8]`. -/
theorem beam_positions_reference_algorithm :
    (∀ W : ℚ, Wall.availableWidth W = W - 4) ∧
    (∀ W : ℚ, Wall.numSpaces W = max 2 ⌊(W - 4) / 8⌋) ∧
    (∀ W : ℚ, Wall.spacing W = max 4 ((W - 4) / (max 2 ⌊(W - 4) / 8⌋ : ℤ))) ∧
    (∀ W : ℚ, Wall.beamPositions W =
      (List.range (⌊(W / 2 - 2 - (-(W / 2) + 2)) / Wall.spacing W⌋ + 1).toNat).map
        (fun i : ℕ => -(W / 2) + 2 + (i : ℚ) * Wall.spacing W)) ∧
    Wall.beamPositions 20 = [-8, 0, 8] := by
  refine ⟨fun W => by norm_num [Wall.availableWidth, Wall.margin],
    fun W => by norm_num [Wall.numSpaces, Wall.availableWidth,
      Wall.maxSpacing, Wall.margin],
    fun W => by norm_num [Wall.spacing, Wall.numSpaces, Wall.availableWidth,
      Wall.maxSpacing, Wall.minSpacing, Wall.margin],
    fun W => ?_, Wall.beamPositions_twenty⟩
  rw [Wall.beamPositions, Wall.beamLoop_closed_form _ _ (Wall.spacing_pos W)]
  norm_num [Wall.margin]

/-- Counterexample to C6 as stated: at wall width `21` the available width
is positive but the computed spacing is `17/2 = 8.5 > 8`. -/
theorem beam_spacing_exceeds_max :
    0 < Wall.availableWidth 21 ∧ ¬Wall.spacing 21 ≤ 8 := by
  have hfl : ⌊Wall.availableWidth 21 / Wall.maxSpacing⌋ = 2 := by
    rw [Int.floor_eq_iff]
    norm_num [Wall.availableWidth, Wall.maxSpacing, Wall.margin]
  constructor
  · norm_num [Wall.availableWidth, Wall.margin]
  · rw [Wall.spacing, Wall.numSpaces, hfl]
    norm_num [Wall.availableWidth, Wall.minSpacing, Wall.margin]

/-- C6 (amended): for every wall width `W` with available width `W - 4 > 0`,
the computed beam spacing satisfies `4 ≤ spacing < 12` (the code does not
enforce the upper bound `8`: spacing can reach up to just under `12`). -/
theorem beam_spacing_band (W : ℚ) (ha : 0 < Wall.availableWidth W) :
    4 ≤ Wall.spacing W ∧ Wall.spacing W < 12 := by
  obtain ⟨f, hf⟩ : ∃ f, ⌊Wall.availableWidth W / Wall.maxSpacing⌋ = f :=
    ⟨_, rfl⟩
  have hspac : Wall.spacing W =
      max 4 (Wall.availableWidth W / ((max 2 f : ℤ) : ℚ)) := by
    rw [Wall.spacing, Wall.numSpaces, hf]
    rfl
  have hf8 : Wall.availableWidth W / 8 < (f : ℚ) + 1 := by
    have h := Int.lt_floor_add_one (Wall.availableWidth W / Wall.maxSpacing)
    rw [hf] at h
    simpa [Wall.maxSpacing] using h
  have ha8 : Wall.availableWidth W < 8 * ((f : ℚ) + 1) := by
    rw [div_lt_iff₀ (by norm_num : (0 : ℚ) < 8)] at hf8
    linarith
  have hnpos : (0 : ℚ) < ((max 2 f : ℤ) : ℚ) := by
    have h2 : (0 : ℤ) < max 2 f :=
      lt_of_lt_of_le (by norm_num) (le_max_left _ _)
    exact_mod_cast h2
  have hbound : Wall.availableWidth W < 12 * ((max 2 f : ℤ) : ℚ) := by
    rcases le_or_lt f 2 with h | h
    · rw [max_eq_left h]
      have hc : (f : ℚ) ≤ 2 := by exact_mod_cast h
      push_cast
      nlinarith
    · rw [max_eq_right h.le]
      have h3 : (3 : ℚ) ≤ (f : ℚ) := by
        have h3i : (3 : ℤ) ≤ f := h
        exact_mod_cast h3i
      nlinarith
  rw [hspac]
  refine ⟨le_max_left _ _, max_lt (by norm_num) ?_⟩
  rw [div_lt_iff₀ hnpos]
  linarith

/-- Witness for the amended C6 at wall width `21`. -/
theorem beam_spacing_band_witness :
    0 < Wall.availableWidth 21 ∧
    (4 ≤ Wall.spacing 21 ∧ Wall.spacing 21 < 12) :=
  ⟨by norm_num [Wall.availableWidth, Wall.margin],
    beam_spacing_band 21 (by norm_num [Wall.availableWidth, Wall.margin])⟩

/-- C10: every generated beam x-position lies within the margin band
`[-W/2 + 2, W/2 - 2]`; when `W ≥ 4` the first beam is at exactly
`-W/2 + 2`; and consecutive beam positions differ by exactly the computed
spacing. -/
theorem beam_positions_margin_invariant (W : ℚ) :
    (∀ x ∈ Wall.beamPositions W, -(W / 2) + 2 ≤ x ∧ x ≤ W / 2 - 2) ∧
    (4 ≤ W → (Wall.beamPositions W).head? = some (-(W / 2) + 2)) ∧
    (∀ i : ℕ, ∀ x y : ℚ, (Wall.beamPositions W)[i]? = some x →
      (Wall.beamPositions W)[i + 1]? = some y →
      y = x + Wall.spacing W) := by
  have hs := Wall.spacing_pos W
  obtain ⟨N, hN⟩ : ∃ N,
      (⌊(W / 2 - Wall.margin - (-(W / 2) + Wall.margin)) /
        Wall.spacing W⌋ + 1).toNat = N := ⟨_, rfl⟩
  have hbp : Wall.beamPositions W =
      (List.range N).map
        (fun i : ℕ => -(W / 2) + Wall.margin + (i : ℚ) * Wall.spacing W) := by
    rw [Wall.beamPositions, Wall.beamLoop_closed_form _ _ hs _, hN]
  refine ⟨?_, ?_, ?_⟩
  · intro x hx
    rw [hbp] at hx
    simp only [List.mem_map, List.mem_range] at hx
    obtain ⟨i, hi, rfl⟩ := hx
    have hnn : (0 : ℚ) ≤ (i : ℚ) * Wall.spacing W :=
      mul_nonneg (by positivity) hs.le
    constructor
    · simp only [Wall.margin]
      linarith
    · have hiz : (i : ℤ) ≤
          ⌊(W / 2 - Wall.margin - (-(W / 2) + Wall.margin)) /
            Wall.spacing W⌋ := by omega
      have hle1 : (i : ℚ) ≤
          (W / 2 - Wall.margin - (-(W / 2) + Wall.margin)) /
            Wall.spacing W := by
        refine le_trans ?_ (Int.floor_le _)
        exact_mod_cast hiz
      have hmul : (i : ℚ) * Wall.spacing W ≤
          W / 2 - Wall.margin - (-(W / 2) + Wall.margin) :=
        (le_div_iff₀ hs).mp hle1
      simp only [Wall.margin] at hmul ⊢
      linarith
  · intro h4
    have hD : (0 : ℚ) ≤
        (W / 2 - Wall.margin - (-(W / 2) + Wall.margin)) / Wall.spacing W := by
      refine div_nonneg ?_ hs.le
      simp only [Wall.margin]
      linarith
    have hfl0 := Int.floor_nonneg.mpr hD
    obtain ⟨m, hm⟩ : ∃ m, N = m + 1 := ⟨N - 1, by omega⟩
    rw [hbp, hm, List.range_succ_eq_map]
    simp [Wall.margin]
  · intro i x y hx hy
    rw [hbp] at hx hy
    rw [List.getElem?_eq_some] at hx hy
    obtain ⟨hix, hx⟩ := hx
    obtain ⟨hiy, hy⟩ := hy
    simp only [List.getElem_map, List.getElem_range] at hx hy
    rw [← hx, ← hy]
    push_cast
    ring

/-- Witness for C10 at wall width `20` and concrete list entries. -/
theorem beam_positions_margin_invariant_witness :
    (-(20 / 2 : ℚ) + 2 ≤ -8 ∧ (-8 : ℚ) ≤ 20 / 2 - 2) ∧
    (Wall.beamPositions 20).head? = some (-(20 / 2) + 2) ∧
    (0 : ℚ) = -8 + Wall.spacing 20 :=
  ⟨(beam_positions_margin_invariant 20).1 (-8)
      (by rw [Wall.beamPositions_twenty]; norm_num),
    (beam_positions_margin_invariant 20).2.1 (by norm_num),
    (beam_positions_margin_invariant 20).2.2 0 (-8) 0
      (by rw [Wall.beamPositions_twenty]; rfl)
      (by rw [Wall.beamPositions_twenty]; rfl)⟩

/-! ## Skylight partition (`Roof` component, panel group filters) -/

/-- The left panel's skylights, from `skylights.filter(s => s.xOffset < 0)`
in the `Roof` component. -/
def leftPanelSkylights (skylights : List Skylight) : List Skylight :=
  skylights.filter (fun s => s.xOffset < 0)

/-- The right panel's skylights, from `skylights.filter(s => s.xOffset >= 0)`
in the `Roof` component. -/
def rightPanelSkylights (skylights : List Skylight) : List Skylight :=
  skylights.filter (fun s => 0 ≤ s.xOffset)

/-- The position of a skylight mesh inside its panel group, from
`position={[xPos, yPos, 0]}` with `xPos = skylight.xOffset` and
`yPos = skylight.yOffset` in `createSkylight`. -/
def createSkylightPosition (s : Skylight) : ℚ × ℚ × ℚ :=
  (s.xOffset, s.yOffset, 0)

/-- The local rotation of a skylight mesh inside its panel group, from
`rotation={[0, 0, 0]}` in `createSkylight`: the skylight adds no rotation of
its own, so it inherits the panel's tilt purely by nesting. -/
def createSkylightLocalRot : ℚ × ℚ × ℚ := (0, 0, 0)

/-- C7: the two skylight filters partition the list — a skylight with
`xOffset < 0` is in the left panel group, one with `xOffset ≥ 0` in the
right, never both, and together they are a permutation of the input; in
particular `xOffset = -3` goes left and `xOffset = 3` goes right; and the
skylight's `(xOffset, yOffset)` is used directly as its position in the
panel's local frame, with no rotation of its own. -/
theorem skylight_panel_partition :
    (∀ (l : List Skylight) (s : Skylight),
      (s ∈ leftPanelSkylights l ↔ s ∈ l ∧ s.xOffset < 0) ∧
      (s ∈ rightPanelSkylights l ↔ s ∈ l ∧ 0 ≤ s.xOffset) ∧
      ¬(s ∈ leftPanelSkylights l ∧ s ∈ rightPanelSkylights l) ∧
      List.Perm (leftPanelSkylights l ++ rightPanelSkylights l) l) ∧
    (⟨4, 6, -3, 1⟩ : Skylight) ∈
      leftPanelSkylights [⟨4, 6, -3, 1⟩, ⟨4, 6, 3, 1⟩] ∧
    (⟨4, 6, 3, 1⟩ : Skylight) ∈
      rightPanelSkylights [⟨4, 6, -3, 1⟩, ⟨4, 6, 3, 1⟩] ∧
    (∀ s : Skylight, createSkylightPosition s = (s.xOffset, s.yOffset, 0)) ∧
    createSkylightLocalRot = (0, 0, 0) := by
  refine ⟨fun l s => ⟨?_, ?_, ?_, ?_⟩, ?_, ?_, fun s => rfl, rfl⟩
  · simp [leftPanelSkylights, List.mem_filter]
  · simp [rightPanelSkylights, List.mem_filter]
  · rintro ⟨hl, hr⟩
    rw [leftPanelSkylights, List.mem_filter] at hl
    rw [rightPanelSkylights, List.mem_filter] at hr
    have h1 : s.xOffset < 0 := by simpa using hl.2
    have h2 : 0 ≤ s.xOffset := by simpa using hr.2
    linarith
  · have hneg : (fun s : Skylight => decide (0 ≤ s.xOffset)) =
        fun s : Skylight => !decide (s.xOffset < 0) := by
      funext s
      rw [← decide_not, decide_eq_decide]
      exact (@not_lt ℚ _ s.xOffset 0).symm
    rw [leftPanelSkylights, rightPanelSkylights, hneg]
    exact List.filter_append_perm _ l
  · simp [leftPanelSkylights, List.mem_filter]
  · simp [rightPanelSkylights, List.mem_filter]

/-! ## Wall solids (`Wall` component geometry and `Building` wall props) -/

/-- A wall solid descriptor: either the extrusion of a planar outline to a
fixed thickness (`THREE.ExtrudeGeometry` of the gable `Shape`, depth `0.2`),
or a plain box (`boxGeometry args=[width, height, 0.2]`). -/
inductive WallGeom where
  | extruded (outline : List (ℚ × ℚ)) (depth : ℚ)
  | box (w h d : ℚ)
deriving DecidableEq

/-- The gable outline traced by the `Wall` component's `Shape`: `moveTo` at
`(-w/2, -h/2)` followed by the five `lineTo` calls, the last returning to
the start point. -/
def gableOutline (width height roofHeight : ℚ) : List (ℚ × ℚ) :=
  [(-(width / 2), -(height / 2)), (width / 2, -(height / 2)),
    (width / 2, height / 2), (0, height / 2 + roofHeight),
    (-(width / 2), height / 2), (-(width / 2), -(height / 2))]

/-- The wall geometry choice of the `Wall` component: front/back walls with
`roofPitch > 0` get the extruded gable outline (with
`roofHeight = (width/2) * (roofPitch/12)`), every other wall a plain
`width × height × 0.2` box. -/
def wallGeometry (width height : ℚ) (wallPosition : WallPosition)
    (roofPitch : ℚ) : WallGeom :=
  if (wallPosition = .front ∨ wallPosition = .back) ∧ 0 < roofPitch then
    WallGeom.extruded
      (gableOutline width height (width / 2 * (roofPitch / 12))) (1 / 5)
  else
    WallGeom.box width height (1 / 5)

/-- The four wall solids as instantiated by the `Building` component: the
front/back walls receive the building width and `roofPitch`, the left/right
walls receive the building length as their width and no `roofPitch` (so the
prop takes its default value `0`). -/
def buildingWallGeometry (d : BuildingDimensions) : WallPosition → WallGeom
  | .front => wallGeometry d.width d.height .front d.roofPitch
  | .back => wallGeometry d.width d.height .back d.roofPitch
  | .left => wallGeometry d.length d.height .left 0
  | .right => wallGeometry d.length d.height .right 0

/-- The world-space y coordinate of each wall group's center, from the
`Building` component's `position={[.., dimensions.height/2, ..]}` props. -/
def wallCenterY (d : BuildingDimensions) : ℚ := d.height / 2

/-- C9: for front/back walls with `roofHeight > 0` the wall solid is the
extrusion of exactly the closed polygon `(-w/2,-h/2), (w/2,-h/2), (w/2,h/2),
(0, h/2+roofHeight), (-w/2,h/2)` (closing back to its start), whose apex
sits at world height `height + roofHeight`; left/right walls are always a
plain box of the eave height (width equal to the building length). -/
theorem gable_wall_geometry (d : BuildingDimensions) (hw : 0 < d.width)
    (hh : 0 < d.height)
    (hrh : 0 < d.width / 2 * (d.roofPitch / 12)) :
    buildingWallGeometry d .front =
      WallGeom.extruded
        (gableOutline d.width d.height (d.width / 2 * (d.roofPitch / 12)))
        (1 / 5) ∧
    buildingWallGeometry d .back =
      WallGeom.extruded
        (gableOutline d.width d.height (d.width / 2 * (d.roofPitch / 12)))
        (1 / 5) ∧
    gableOutline d.width d.height (d.width / 2 * (d.roofPitch / 12)) =
      [(-(d.width / 2), -(d.height / 2)), (d.width / 2, -(d.height / 2)),
        (d.width / 2, d.height / 2),
        (0, d.height / 2 + d.width / 2 * (d.roofPitch / 12)),
        (-(d.width / 2), d.height / 2),
        (-(d.width / 2), -(d.height / 2))] ∧
    wallCenterY d + (d.height / 2 + d.width / 2 * (d.roofPitch / 12)) =
      d.height + d.width / 2 * (d.roofPitch / 12) ∧
    (∀ d2 : BuildingDimensions,
      buildingWallGeometry d2 .left =
        WallGeom.box d2.length d2.height (1 / 5) ∧
      buildingWallGeometry d2 .right =
        WallGeom.box d2.length d2.height (1 / 5)) := by
  have hp : 0 < d.roofPitch := by
    rcases mul_pos_iff.mp hrh with ⟨h1, h2⟩ | ⟨h1, h2⟩
    · linarith
    · linarith
  refine ⟨?_, ?_, rfl, ?_, fun d2 => ⟨?_, ?_⟩⟩
  · rw [buildingWallGeometry, wallGeometry, if_pos ⟨Or.inl rfl, hp⟩]
  · rw [buildingWallGeometry, wallGeometry, if_pos ⟨Or.inr rfl, hp⟩]
  · rw [wallCenterY]
    ring
  · rw [buildingWallGeometry, wallGeometry, if_neg]
    rintro ⟨h1 | h1, h2⟩ <;> exact WallPosition.noConfusion h1
  · rw [buildingWallGeometry, wallGeometry, if_neg]
    rintro ⟨h1 | h1, h2⟩ <;> exact WallPosition.noConfusion h1

/-- Witness for C9 at a concrete building. -/
theorem gable_wall_geometry_witness :
    (0 : ℚ) < 20 ∧ (0 : ℚ) < 10 ∧
    (0 : ℚ) < (20 : ℚ) / 2 * (3 / 12) ∧
    buildingWallGeometry ⟨20, 30, 10, 3⟩ .left =
      WallGeom.box 30 10 (1 / 5) :=
  ⟨by norm_num, by norm_num, by norm_num,
    ((gable_wall_geometry ⟨20, 30, 10, 3⟩ (by norm_num) (by norm_num)
      (by norm_num)).2.2.2.2 ⟨20, 30, 10, 3⟩).1⟩

/-! ## Roof dimension/pitch solver and panel layout (`Roof` component, ℝ) -/

/-- JavaScript's `Math.atan2(y, x)` (signed zeros aside, which do not arise
here): `arctan(y/x)` shifted by `±π` in the left half-plane, `±π/2` on the
positive/negative y-axis, `0` at the origin. -/
noncomputable def atan2 (y x : ℝ) : ℝ :=
  if 0 < x then Real.arctan (y / x)
  else if x < 0 then
    (if 0 ≤ y then Real.arctan (y / x) + Real.pi
     else Real.arctan (y / x) - Real.pi)
  else if 0 < y then Real.pi / 2
  else if y < 0 then -(Real.pi / 2)
  else 0

/-- `roofHeight = (width / 2) * (pitch / 12)` from the `Roof` component. -/
noncomputable def Roof.roofHeight (width pitch : ℝ) : ℝ :=
  width / 2 * (pitch / 12)

/-- `pitchAngle = Math.atan2(roofHeight, width / 2)` from the `Roof`
component. -/
noncomputable def Roof.pitchAngle (width pitch : ℝ) : ℝ :=
  atan2 (Roof.roofHeight width pitch) (width / 2)

/-- `panelLength = Math.sqrt((width/2)^2 + roofHeight^2)` from the `Roof`
component. -/
noncomputable def Roof.panelLength (width pitch : ℝ) : ℝ :=
  Real.sqrt ((width / 2) ^ 2 + Roof.roofHeight width pitch ^ 2)

/-- `roofHeight = (dimensions.width / 2) * (dimensions.roofPitch / 12)` as
recomputed in the `Building` component. -/
noncomputable def Building.roofHeight (width pitch : ℝ) : ℝ :=
  width / 2 * (pitch / 12)

/-- `totalHeight = dimensions.height + roofHeight` from the `Building`
component. -/
noncomputable def Building.totalHeight (height width pitch : ℝ) : ℝ :=
  height + Building.roofHeight width pitch

/-- The roof group position `[0, height, 0]` from the `Roof` component's
outer `<group>`. -/
noncomputable def Roof.groupPosition (height : ℝ) : ℝ × ℝ × ℝ :=
  (0, height, 0)

/-- The left panel group position `[-width/4, roofHeight/2, 0]` from the
`Roof` component. -/
noncomputable def Roof.leftPanelPosition (width pitch : ℝ) : ℝ × ℝ × ℝ :=
  (-(width / 4), Roof.roofHeight width pitch / 2, 0)

/-- The right panel group position `[width/4, roofHeight/2, 0]` from the
`Roof` component. -/
noncomputable def Roof.rightPanelPosition (width pitch : ℝ) : ℝ × ℝ × ℝ :=
  (width / 4, Roof.roofHeight width pitch / 2, 0)

/-- The left panel group rotation about the length axis, `+pitchAngle`, from
`rotation={[0, 0, pitchAngle]}` in the `Roof` component. -/
noncomputable def Roof.leftPanelRotZ (width pitch : ℝ) : ℝ :=
  Roof.pitchAngle width pitch

/-- The right panel group rotation about the length axis, `-pitchAngle`,
from `rotation={[0, 0, -pitchAngle]}` in the `Roof` component. -/
noncomputable def Roof.rightPanelRotZ (width pitch : ℝ) : ℝ :=
  -Roof.pitchAngle width pitch

/-- The panel box dimensions `[panelLength, 0.2, length]` from the `Roof`
component. -/
noncomputable def Roof.panelBoxDims (width length pitch : ℝ) : ℝ × ℝ × ℝ :=
  (Roof.panelLength width pitch, 1 / 5, length)

/-- The ridge cap position `[0, roofHeight, 0]` from the `Roof` component. -/
noncomputable def Roof.ridgeCapPosition (width pitch : ℝ) : ℝ × ℝ × ℝ :=
  (0, Roof.roofHeight width pitch, 0)

/-- The ridge cap box dimensions `[0.4, 0.3, length]` from the `Roof`
component. -/
noncomputable def Roof.ridgeCapDims (length : ℝ) : ℝ × ℝ × ℝ :=
  (2 / 5, 3 / 10, length)

/-- World position (in the roof group's x-y cross-section) of the point at
signed distance `t` along a panel's local x-axis, for a panel group centered
at `(cx, cy)` and rotated by `angle` about the length axis.  Rotation about
the z (length) axis maps the local offset `(t, 0)` to
`(t cos angle, t sin angle)`. -/
noncomputable def Roof.panelPoint (cx cy angle t : ℝ) : ℝ × ℝ :=
  (cx + t * Real.cos angle, cy + t * Real.sin angle)

/-- The panel length is positive for positive width. -/
lemma Roof.panelLength_pos (w p : ℝ) (hw : 0 < w) :
    0 < Roof.panelLength w p := by
  rw [Roof.panelLength]
  have h : (0 : ℝ) < (w / 2) ^ 2 + Roof.roofHeight w p ^ 2 := by positivity
  exact Real.sqrt_pos.mpr h

/-- The square of the panel length. -/
lemma Roof.sq_panelLength (w p : ℝ) :
    Roof.panelLength w p ^ 2 = (w / 2) ^ 2 + Roof.roofHeight w p ^ 2 := by
  rw [Roof.panelLength]
  exact Real.sq_sqrt (by positivity)

/-- For positive width, `atan2` reduces to `arctan` of the slope ratio. -/
lemma Roof.pitchAngle_eq_arctan (w p : ℝ) (hw : 0 < w) :
    Roof.pitchAngle w p =
      Real.arctan (Roof.roofHeight w p / (w / 2)) := by
  rw [Roof.pitchAngle, atan2, if_pos (by linarith : (0 : ℝ) < w / 2)]

/-- `sqrt (1 + (roofHeight/(w/2))^2) = panelLength / (w/2)`. -/
lemma Roof.sqrt_one_add_sq (w p : ℝ) (hw : 0 < w) :
    Real.sqrt (1 + (Roof.roofHeight w p / (w / 2)) ^ 2) =
      Roof.panelLength w p / (w / 2) := by
  have hw2 : (0 : ℝ) < w / 2 := by linarith
  have h1 : 1 + (Roof.roofHeight w p / (w / 2)) ^ 2 =
      (Roof.panelLength w p / (w / 2)) ^ 2 := by
    rw [show (Roof.panelLength w p / (w / 2)) ^ 2 =
        Roof.panelLength w p ^ 2 / (w / 2) ^ 2 from div_pow _ _ 2,
      Roof.sq_panelLength]
    field_simp
    ring
  rw [h1]
  exact Real.sqrt_sq (div_nonneg (Real.sqrt_nonneg _) hw2.le)

/-- `cos pitchAngle = (w/2) / panelLength`. -/
lemma Roof.cos_pitchAngle (w p : ℝ) (hw : 0 < w) :
    Real.cos (Roof.pitchAngle w p) = (w / 2) / Roof.panelLength w p := by
  rw [Roof.pitchAngle_eq_arctan w p hw, Real.cos_arctan,
    Roof.sqrt_one_add_sq w p hw, one_div, inv_div]

/-- `sin pitchAngle = roofHeight / panelLength`. -/
lemma Roof.sin_pitchAngle (w p : ℝ) (hw : 0 < w) :
    Real.sin (Roof.pitchAngle w p) =
      Roof.roofHeight w p / Roof.panelLength w p := by
  rw [Roof.pitchAngle_eq_arctan w p hw, Real.sin_arctan,
    Roof.sqrt_one_add_sq w p hw]
  have hw2 : (w : ℝ) / 2 ≠ 0 := by linarith
  have hpl : Roof.panelLength w p ≠ 0 := (Roof.panelLength_pos w p hw).ne'
  field_simp
  ring

/-- `panelLength * cos pitchAngle = w/2`. -/
lemma Roof.panelLength_mul_cos (w p : ℝ) (hw : 0 < w) :
    Roof.panelLength w p * Real.cos (Roof.pitchAngle w p) = w / 2 := by
  rw [Roof.cos_pitchAngle w p hw]
  have hpl : Roof.panelLength w p ≠ 0 := (Roof.panelLength_pos w p hw).ne'
  field_simp
  ring

/-- `panelLength * sin pitchAngle = roofHeight`. -/
lemma Roof.panelLength_mul_sin (w p : ℝ) (hw : 0 < w) :
    Roof.panelLength w p * Real.sin (Roof.pitchAngle w p) =
      Roof.roofHeight w p := by
  rw [Roof.sin_pitchAngle w p hw]
  have hpl : Roof.panelLength w p ≠ 0 := (Roof.panelLength_pos w p hw).ne'
  field_simp

/-- C2: the solver computes `roofHeight = (width/2)*(roofPitch/12)`,
`pitchAngle = atan2(roofHeight, width/2)`,
`panelLength = sqrt((width/2)^2 + roofHeight^2)` and
`totalHeight = height + roofHeight`; when `roofPitch = 0` these degenerate
to `roofHeight = 0`, `pitchAngle = 0`, `panelLength = width/2` (flat roof,
no error branch — the functions are total). -/
theorem roof_dimension_solver (w h p : ℝ) (hw : 0 < w) (hh : 0 < h)
    (hp : 0 ≤ p) :
    Roof.roofHeight w p = w / 2 * (p / 12) ∧
    Roof.pitchAngle w p = atan2 (Roof.roofHeight w p) (w / 2) ∧
    Roof.panelLength w p =
      Real.sqrt ((w / 2) ^ 2 + Roof.roofHeight w p ^ 2) ∧
    Building.totalHeight h w p = h + Roof.roofHeight w p ∧
    (p = 0 → Roof.roofHeight w p = 0 ∧ Roof.pitchAngle w p = 0 ∧
      Roof.panelLength w p = w / 2) := by
  refine ⟨rfl, rfl, rfl, rfl, ?_⟩
  rintro rfl
  have hrh : Roof.roofHeight w 0 = 0 := by
    rw [Roof.roofHeight]
    ring
  refine ⟨hrh, ?_, ?_⟩
  · rw [Roof.pitchAngle_eq_arctan w 0 hw, hrh]
    simp [Real.arctan_zero]
  · rw [Roof.panelLength, hrh]
    rw [show (w / 2) ^ 2 + (0 : ℝ) ^ 2 = (w / 2) ^ 2 by ring]
    exact Real.sqrt_sq (by linarith)

/-- Witness for C2 at `width = 2`, `height = 5`, `roofPitch = 0`. -/
theorem roof_dimension_solver_witness :
    (0 : ℝ) < 2 ∧ (0 : ℝ) < 5 ∧ (0 : ℝ) ≤ 0 ∧
    Roof.panelLength 2 0 = 2 / 2 :=
  ⟨by norm_num, by norm_num, le_refl 0,
    ((roof_dimension_solver 2 5 0 (by norm_num) (by norm_num)
      (le_refl 0)).2.2.2.2 rfl).2.2⟩

/-- Counterexample to C8 as stated: at `width = 0`, `pitch = 12` the panel
length equals `width/2` (both are `0`) although the pitch is nonzero, so
"equality iff pitch = 0" fails at the boundary of the claimed domain
`width ≥ 0`. -/
theorem panelLength_eq_iff_fails_at_zero_width :
    ¬(Roof.panelLength 0 12 = 0 / 2 ↔ (12 : ℝ) = 0) := by
  intro h
  have h0 : Roof.panelLength 0 12 = 0 / 2 := by
    rw [Roof.panelLength, Roof.roofHeight]
    norm_num
  have h12 := h.mp h0
  norm_num at h12

/-- C8 (amended): for every width `> 0` (rather than `≥ 0`) and pitch `≥ 0`,
`panelLength ≥ width/2` with equality iff `pitch = 0` (at `width = 0` the
equality also holds for nonzero pitch, so the strict bound is needed). -/
theorem panelLength_ge_half_width (w p : ℝ) (hw : 0 < w) (hp : 0 ≤ p) :
    w / 2 ≤ Roof.panelLength w p ∧
    (Roof.panelLength w p = w / 2 ↔ p = 0) := by
  have hw2 : (0 : ℝ) ≤ w / 2 := by linarith
  have hsq : Real.sqrt ((w / 2) ^ 2) = w / 2 := Real.sqrt_sq hw2
  constructor
  · rw [Roof.panelLength, ← hsq]
    exact Real.sqrt_le_sqrt (by nlinarith [sq_nonneg (Roof.roofHeight w p)])
  · constructor
    · intro heq
      rw [Roof.panelLength, ← hsq] at heq
      have hargs := (Real.sqrt_inj (by positivity) (by positivity)).mp heq
      have hrh : Roof.roofHeight w p = 0 := by nlinarith [sq_nonneg (Roof.roofHeight w p)]
      rw [Roof.roofHeight] at hrh
      have hw0 : w / 2 ≠ 0 := by linarith
      rcases mul_eq_zero.mp hrh with h1 | h1
      · exact absurd h1 hw0
      · linarith
    · rintro rfl
      rw [Roof.panelLength, show Roof.roofHeight w 0 = 0 by rw [Roof.roofHeight]; ring]
      rw [show (w / 2) ^ 2 + (0 : ℝ) ^ 2 = (w / 2) ^ 2 by ring]
      exact hsq

/-- Witness for the amended C8 at `width = 2`, `pitch = 0`. -/
theorem panelLength_ge_half_width_witness :
    (0 : ℝ) < 2 ∧ (0 : ℝ) ≤ 0 ∧ (2 : ℝ) / 2 ≤ Roof.panelLength 2 0 :=
  ⟨by norm_num, le_refl 0,
    (panelLength_ge_half_width 2 0 (by norm_num) (le_refl 0)).1⟩

/-- C4: the left panel group sits at `(-width/4, roofHeight/2, 0)` rotated
`+pitchAngle` about the length axis, the right mirrored at
`(width/4, roofHeight/2, 0)` rotated `-pitchAngle` (inside the roof group at
the eave plane `y = height`), each panel a `panelLength × length` rectangle;
the panels' inner edge midlines both land exactly at `(0, roofHeight)`,
where the ridge cap box is centered, and the panels stay on their own side
of `x = 0` — contiguity with no gap and no overlap. -/
theorem roof_panels_contiguous_at_ridge (w L h p : ℝ) (hw : 0 < w)
    (hL : 0 < L) (hh : 0 < h) (hp : 0 < p) :
    Roof.groupPosition h = (0, h, 0) ∧
    Roof.leftPanelPosition w p = (-(w / 4), Roof.roofHeight w p / 2, 0) ∧
    Roof.rightPanelPosition w p = (w / 4, Roof.roofHeight w p / 2, 0) ∧
    Roof.leftPanelRotZ w p = Roof.pitchAngle w p ∧
    Roof.rightPanelRotZ w p = -Roof.pitchAngle w p ∧
    Roof.panelBoxDims w L p = (Roof.panelLength w p, 1 / 5, L) ∧
    Roof.ridgeCapPosition w p = (0, Roof.roofHeight w p, 0) ∧
    Roof.panelPoint (-(w / 4)) (Roof.roofHeight w p / 2)
      (Roof.leftPanelRotZ w p) (Roof.panelLength w p / 2) =
      (0, Roof.roofHeight w p) ∧
    Roof.panelPoint (w / 4) (Roof.roofHeight w p / 2)
      (Roof.rightPanelRotZ w p) (-(Roof.panelLength w p / 2)) =
      (0, Roof.roofHeight w p) ∧
    (∀ t : ℝ, |t| ≤ Roof.panelLength w p / 2 →
      (Roof.panelPoint (-(w / 4)) (Roof.roofHeight w p / 2)
        (Roof.leftPanelRotZ w p) t).1 ≤ 0 ∧
      0 ≤ (Roof.panelPoint (w / 4) (Roof.roofHeight w p / 2)
        (Roof.rightPanelRotZ w p) t).1) := by
  have hc := Roof.panelLength_mul_cos w p hw
  have hs := Roof.panelLength_mul_sin w p hw
  have hcos_nn : 0 ≤ Real.cos (Roof.pitchAngle w p) := by
    rw [Roof.cos_pitchAngle w p hw]
    have := (Roof.panelLength_pos w p hw).le
    positivity
  refine ⟨rfl, rfl, rfl, rfl, rfl, rfl, rfl, ?_, ?_, ?_⟩
  · rw [Roof.panelPoint, Roof.leftPanelRotZ, Prod.mk.injEq]
    constructor
    · rw [show Roof.panelLength w p / 2 * Real.cos (Roof.pitchAngle w p) =
        Roof.panelLength w p * Real.cos (Roof.pitchAngle w p) / 2 by ring,
        hc]
      ring
    · rw [show Roof.panelLength w p / 2 * Real.sin (Roof.pitchAngle w p) =
        Roof.panelLength w p * Real.sin (Roof.pitchAngle w p) / 2 by ring,
        hs]
      ring
  · rw [Roof.panelPoint, Roof.rightPanelRotZ, Real.cos_neg, Real.sin_neg,
      Prod.mk.injEq]
    constructor
    · rw [show -(Roof.panelLength w p / 2) * Real.cos (Roof.pitchAngle w p) =
        -(Roof.panelLength w p * Real.cos (Roof.pitchAngle w p)) / 2 by ring,
        hc]
      ring
    · rw [show -(Roof.panelLength w p / 2) * -Real.sin (Roof.pitchAngle w p) =
        Roof.panelLength w p * Real.sin (Roof.pitchAngle w p) / 2 by ring,
        hs]
      ring
  · intro t ht
    have htle : t ≤ Roof.panelLength w p / 2 := le_trans (le_abs_self t) ht
    have htge : -(Roof.panelLength w p / 2) ≤ t := by
      have := neg_abs_le t
      linarith
    have hup : t * Real.cos (Roof.pitchAngle w p) ≤
        Roof.panelLength w p / 2 * Real.cos (Roof.pitchAngle w p) :=
      mul_le_mul_of_nonneg_right htle hcos_nn
    have hlo : -(Roof.panelLength w p / 2) * Real.cos (Roof.pitchAngle w p) ≤
        t * Real.cos (Roof.pitchAngle w p) :=
      mul_le_mul_of_nonneg_right htge hcos_nn
    constructor
    · rw [Roof.panelPoint, Roof.leftPanelRotZ]
      have : Roof.panelLength w p / 2 * Real.cos (Roof.pitchAngle w p) = w / 4 := by
        rw [show Roof.panelLength w p / 2 * Real.cos (Roof.pitchAngle w p) =
          Roof.panelLength w p * Real.cos (Roof.pitchAngle w p) / 2 by ring, hc]
        ring
      simp only
      linarith
    · rw [Roof.panelPoint, Roof.rightPanelRotZ, Real.cos_neg]
      have : -(Roof.panelLength w p / 2) * Real.cos (Roof.pitchAngle w p) = -(w / 4) := by
        rw [show -(Roof.panelLength w p / 2) * Real.cos (Roof.pitchAngle w p) =
          -(Roof.panelLength w p * Real.cos (Roof.pitchAngle w p)) / 2 by ring, hc]
        ring
      simp only
      linarith

/-- Witness for C4 at `width = 8`, `length = 12`, `height = 10`,
`pitch = 3`. -/
theorem roof_panels_contiguous_at_ridge_witness :
    (0 : ℝ) < 8 ∧ (0 : ℝ) < 12 ∧ (0 : ℝ) < 10 ∧ (0 : ℝ) < 3 ∧
    Roof.panelPoint (-(8 / 4)) (Roof.roofHeight 8 3 / 2)
      (Roof.leftPanelRotZ 8 3) (Roof.panelLength 8 3 / 2) =
      (0, Roof.roofHeight 8 3) :=
  ⟨by norm_num, by norm_num, by norm_num, by norm_num,
    (roof_panels_contiguous_at_ridge 8 12 10 3 (by norm_num) (by norm_num)
      (by norm_num) (by norm_num)).2.2.2.2.2.2.2.1⟩

end BarnBuilder
